import Mathlib

/-!
Easegress: API registry, service-instance handlers and server lifecycle

A shallow embedding of

* `pkg/api/api.go` (the global registry of admin API groups),
* `pkg/object/meshcontroller/api/api_serviceinstance.go` (mesh service-instance handlers),
* `src/server/main.go` (process start-up, supervision and the exit-signal handler),

followed by the properties established about them.

Conventions of the embedding:

* Go `string` values are Lean `String`s; Go compares strings byte-wise, which for valid UTF-8
  coincides with the code-point order used by `String`'s `<`.
* A Go `map[string]T` is an association list with at most one pair per key; the (unspecified)
  iteration order of `range` is an arbitrary permutation of that list, supplied by the caller.
* A buffered channel of `struct{}` is the number of buffered tokens; an operation that would
  block returns `none`.
* Logging and other effects are recorded in the state in the order they happen.
-/

namespace Easegress

/-! ## Go runtime and standard library pieces -/

/-- One call to the `logger` package: the level and the formatted message. -/
inductive LogLine where
  | Errorf (msg : String)
  | Warnf (msg : String)
  | Infof (msg : String)
  deriving DecidableEq, Repr

/-- Go's `a < b` on strings: lexicographic comparison, character by character. -/
def stringLess (a b : String) : Bool := decide (a.data < b.data)

/-- Map read `m[k]` with the comma-ok idiom: `some v` when the key is present. -/
def mapLookup {β : Type} (m : List (String × β)) (k : String) : Option β :=
  match m with
  | [] => none
  | (k', v) :: rest => if k' = k then some v else mapLookup rest k

/-- Builtin `delete(m, k)`. -/
def mapDelete {β : Type} (m : List (String × β)) (k : String) : List (String × β) :=
  m.filter (fun kv => decide (kv.1 ≠ k))

/-- Map assignment `m[k] = v`: the previous binding of `k`, if any, is replaced. -/
def mapStore {β : Type} (m : List (String × β)) (k : String) (v : β) : List (String × β) :=
  (k, v) :: mapDelete m k

/-- Inner loop of the standard library's `insertionSort`,
`for j := i; j > a && data.Less(j, j-1); j-- { data.Swap(j, j-1) }`.
The second argument is `data[a:j]` listed from index `j-1` down to `a`, `x` is the element
currently at index `j`; the result is `data[a:i+1]` after the loop, again listed downwards. -/
def insertionSortInner {α : Type} (less : α → α → Bool) (x : α) : List α → List α
  | [] => [x]
  | y :: rest => if less x y then y :: insertionSortInner less x rest else x :: y :: rest

/-- The standard library's `sort.Sort`, as its `insertionSort`:
`for i := a + 1; i < b; i++ { inner loop }`, the elements entering the sorted part one by one
from the left. `less x y` is `data.Less(i, j)` for `x = data[i]`, `y = data[j]`. This is
literally what `sort.Sort` runs on slices of up to 6 elements; on longer slices it uses other
strategies, which produce the same result whenever `less` is a strict total order on pairwise
distinct keys (see `listAPIs_sort_independent`). -/
def sortSort {α : Type} (less : α → α → Bool) (data : List α) : List α :=
  (data.foldl (fun sorted x => insertionSortInner less x sorted) []).reverse

/-! ## `pkg/api/api.go` -/

/-- An `APIEntry`; the handler is kept as an opaque identity. -/
structure APIEntry where
  Path : String
  Method : String
  Handler : Nat
  deriving DecidableEq, Repr

/-- An `APIGroup`: a named bundle of entries. -/
structure APIGroup where
  Group : String
  Entries : List APIEntry
  deriving DecidableEq, Repr

/-- The package-level variables `apis` and `apisChangeChan` (capacity 10), with the log. The
mutex `apisMutex` serialises the three operations, so each is one atomic step on this state. -/
structure Registry where
  apis : List (String × APIGroup)
  apisChangeChan : Nat
  log : List LogLine
  deriving DecidableEq, Repr

/-- Capacity of `apisChangeChan`: `make(chan struct{}, 10)`. -/
def apisChangeChanCap : Nat := 10

/-- The variables as initialised at package load. -/
def emptyRegistry : Registry := { apis := [], apisChangeChan := 0, log := [] }

/-- Send `apisChangeChan <- struct{}{}`: blocks (`none`) when the buffer is full. -/
def sendChange (r : Registry) : Option Registry :=
  if r.apisChangeChan < apisChangeChanCap then
    some { r with apisChangeChan := r.apisChangeChan + 1 }
  else none

/-- A consumer's `<-apisChangeChan`: blocks (`none`) when the buffer is empty. -/
def receiveChange (r : Registry) : Option Registry :=
  if 0 < r.apisChangeChan then some { r with apisChangeChan := r.apisChangeChan - 1 } else none

/-- The method `apisbyOrder.Less`, on the elements at the two indices. -/
def apisbyOrder.Less (a b : APIGroup) : Bool := stringLess a.Group b.Group

/-- The function `RegisterAPIs`: `none` when the send on `apisChangeChan` blocks. -/
def RegisterAPIs (r : Registry) (apiGroup : APIGroup) : Option Registry :=
  let existed := (mapLookup r.apis apiGroup.Group).isSome
  let log1 :=
    if existed then r.log ++ [LogLine.Errorf ("group " ++ apiGroup.Group ++ " existed")]
    else r.log
  let apis1 := mapStore r.apis apiGroup.Group apiGroup
  let log2 := log1 ++ [LogLine.Infof ("register api group " ++ apiGroup.Group)]
  sendChange { r with apis := apis1, log := log2 }

/-- The function `UnregisterAPIs`: `none` when the send on `apisChangeChan` blocks. -/
def UnregisterAPIs (r : Registry) (group : String) : Option Registry :=
  let existed := (mapLookup r.apis group).isSome
  if !existed then
    some { r with log := r.log ++ [LogLine.Errorf ("group " ++ group ++ " not found")] }
  else
    let apis1 := mapDelete r.apis group
    let log1 := r.log ++ [LogLine.Infof ("unregister api group " ++ group)]
    sendChange { r with apis := apis1, log := log1 }

/-- The list `listAPIs` hands to `yaml.Marshal`: the groups collected by ranging over `apis`
in the order `visit` (a permutation of the map's pairs), then sorted by `apisbyOrder`. -/
def listAPIs (visit : List (String × APIGroup)) : List APIGroup :=
  let apiGroups := visit.foldl (fun acc kv => acc ++ [kv.2]) []
  sortSort apisbyOrder.Less apiGroups

/-- One step of a client of the registry: a call of `RegisterAPIs`, a call of
`UnregisterAPIs`, or a watcher taking one event out of `apisChangeChan`. -/
inductive Call where
  | register (apiGroup : APIGroup)
  | unregister (group : String)
  | receive
  deriving DecidableEq, Repr

/-- Effect of one client step. -/
def Call.apply (r : Registry) : Call → Option Registry
  | Call.register g => RegisterAPIs r g
  | Call.unregister n => UnregisterAPIs r n
  | Call.receive => receiveChange r

/-- A sequence of client steps, run in order; `none` when some step blocks. -/
def runCalls : List Call → Registry → Option Registry
  | [], r => some r
  | c :: cs, r => (c.apply r).bind (runCalls cs)

/-- Following the specification's words: the descriptor "registered and not subsequently
unregistered" under `name` after the calls, namely the one most recently registered under
that name unless an unregistration of the name came after it. -/
def registeredGroup (calls : List Call) (name : String) : Option APIGroup :=
  calls.foldl
    (fun cur c =>
      match c with
      | Call.register g => if g.Group = name then some g else cur
      | Call.unregister n => if n = name then none else cur
      | Call.receive => cur)
    none

/-- The calls of `calls` with a watcher scheduled in between: whenever a call has left an
event in the change queue, the watcher takes it out before the next call. -/
def drained : List Call → Registry → List Call
  | [], _ => []
  | c :: cs, r =>
    match c.apply r with
    | none => [c]
    | some r1 =>
      if 0 < r1.apisChangeChan then
        c :: Call.receive :: drained cs { r1 with apisChangeChan := r1.apisChangeChan - 1 }
      else c :: drained cs r1

/-- Well-formedness of the map `apis`: at most one pair per key, and every group is stored
under its own name. -/
def apisWellFormed (m : List (String × APIGroup)) : Prop :=
  (m.map Prod.fst).Nodup ∧ ∀ kv ∈ m, kv.2.Group = kv.1

/-! ## `pkg/object/meshcontroller/api/api_serviceinstance.go` -/

/-- Modelled from the spec: the type `spec.ServiceInstanceSpec` is declared in the package
`meshcontroller/spec`, not in this file. The three fields the handlers read or write are
named; every other field of the record is carried, untouched, in `Others`. -/
structure ServiceInstanceSpec where
  ServiceName : String
  InstanceID : String
  Status : String
  Others : List (String × String)
  deriving DecidableEq, Repr

/-- The method `serviceInstancesByOrder.Less`, on the elements at the two indices. -/
def serviceInstancesByOrder.Less (a b : ServiceInstanceSpec) : Bool :=
  stringLess a.ServiceName b.ServiceName || stringLess a.InstanceID b.InstanceID

/-- The lexicographic order on `(ServiceName, InstanceID)`, stated independently of the code:
the service names decide, and equal service names are decided by the instance IDs. -/
def lexServiceInstance (a b : ServiceInstanceSpec) : Prop :=
  a.ServiceName < b.ServiceName ∨ (a.ServiceName = b.ServiceName ∧ a.InstanceID < b.InstanceID)

/-- The request as far as the handlers look at it: the values `chi.URLParam` returns for the
two URL parameters (the empty string when a parameter is absent). -/
structure Request where
  serviceName : String
  instanceID : String
  deriving DecidableEq, Repr

/-- What a handler wrote to the `http.ResponseWriter`. A handler that writes nothing leaves
the default status 200 and an empty body. -/
structure Response where
  status : Nat
  contentType : Option String
  body : String
  deriving DecidableEq, Repr

/-- Outcome of running a handler: it returned after writing a response, or it panicked (the
panic message is kept without the `%#v` dump of the value). -/
inductive HandlerResult where
  | responded (resp : Response)
  | panicked (msg : String)
  deriving DecidableEq, Repr

/-- Calls a handler makes on `a.service`, in order. -/
inductive ServiceCall where
  | Lock
  | GetServiceInstanceSpec (serviceName instanceID : String)
  | PutServiceInstanceSpec (instanceSpec : ServiceInstanceSpec)
  | Unlock
  deriving DecidableEq, Repr

/-- The receiver `a *API` as far as these handlers use it. Its parts are declared in other
files and packages and are taken as parameters: the two read methods of `a.service`, the method
`convertSpecToPB` and `json.Marshal` (each failing with an error message or succeeding), and
the constant `spec.ServiceStatusOutOfService`. `PB` stands for `v1alpha1.ServiceInstance`. -/
structure API (PB : Type) where
  ListAllServiceInstanceSpecs : List ServiceInstanceSpec
  GetServiceInstanceSpec : String → String → Option ServiceInstanceSpec
  convertSpecToPB : ServiceInstanceSpec → Except String PB
  jsonMarshal : PB → Except String String
  ServiceStatusOutOfService : String

/-- Modelled from the spec: `api.HandleAPIError` is declared in another file of `pkg/api`; it
answers the request with a structured error response that carries the given HTTP status
code and the message of the error. -/
def HandleAPIError (code : Nat) (err : String) : Response :=
  { status := code, contentType := none, body := err }

/-- The constant `http.StatusBadRequest`. -/
def StatusBadRequest : Nat := 400

/-- The constant `http.StatusNotFound`. -/
def StatusNotFound : Nat := 404

/-- The constant `http.StatusOK`, the status of a response on which no other status was written. -/
def StatusOK : Nat := 200

/-- The method `readServiceInstanceInfo`: the two URL parameters, or the error. -/
def readServiceInstanceInfo (r : Request) : Except String (String × String) :=
  let serviceName := r.serviceName
  if serviceName = "" then Except.error "empty service name"
  else
    let instanceID := r.instanceID
    if instanceID = "" then Except.error "empty instance id"
    else Except.ok (serviceName, instanceID)

/-- The slice `listServiceInstanceSpecs` hands to `json.Marshal`: the specs of the store,
sorted by `serviceInstancesByOrder`, each converted, those failing conversion skipped. -/
def listServiceInstanceSpecs {PB : Type} (a : API PB) : List PB :=
  let specs := sortSort serviceInstancesByOrder.Less a.ListAllServiceInstanceSpecs
  specs.foldl
    (fun apiSpecs v =>
      match a.convertSpecToPB v with
      | Except.error _ => apiSpecs
      | Except.ok pbInstance => apiSpecs ++ [pbInstance])
    []

/-- The handler `getServiceInstanceSpec`. -/
def getServiceInstanceSpec {PB : Type} (a : API PB) (r : Request) : HandlerResult :=
  match readServiceInstanceInfo r with
  | Except.error err => HandlerResult.responded (HandleAPIError StatusBadRequest err)
  | Except.ok (serviceName, instanceID) =>
    match a.GetServiceInstanceSpec serviceName instanceID with
    | none =>
      HandlerResult.responded
        (HandleAPIError StatusNotFound (serviceName ++ "/" ++ instanceID ++ " not found"))
    | some instanceSpec =>
      match a.convertSpecToPB instanceSpec with
      | Except.error err => HandlerResult.panicked ("convert spec to pb failed: " ++ err)
      | Except.ok pbInstanceSpec =>
        match a.jsonMarshal pbInstanceSpec with
        | Except.error err => HandlerResult.panicked ("marshal to json failed: " ++ err)
        | Except.ok buff =>
          HandlerResult.responded
            { status := StatusOK, contentType := some "application/json", body := buff }

/-- The handler `offlineSerivceInstance`: the response, and the calls made on `a.service`. -/
def offlineSerivceInstance {PB : Type} (a : API PB) (r : Request) :
    Response × List ServiceCall :=
  match readServiceInstanceInfo r with
  | Except.error err => (HandleAPIError StatusBadRequest err, [])
  | Except.ok (serviceName, instanceID) =>
    match a.GetServiceInstanceSpec serviceName instanceID with
    | none =>
      (HandleAPIError StatusNotFound (serviceName ++ "/" ++ instanceID ++ " not found"),
        [ServiceCall.Lock, ServiceCall.GetServiceInstanceSpec serviceName instanceID,
          ServiceCall.Unlock])
    | some instanceSpec =>
      let instanceSpec1 := { instanceSpec with Status := a.ServiceStatusOutOfService }
      ({ status := StatusOK, contentType := none, body := "" },
        [ServiceCall.Lock, ServiceCall.GetServiceInstanceSpec serviceName instanceID,
          ServiceCall.PutServiceInstanceSpec instanceSpec1, ServiceCall.Unlock])

/-- The `PutServiceInstanceSpec` calls among the calls made on the service: the only calls
through which a handler changes the store. -/
def putCalls : List ServiceCall → List ServiceInstanceSpec
  | [] => []
  | ServiceCall.PutServiceInstanceSpec s :: rest => s :: putCalls rest
  | _ :: rest => putCalls rest

/-! ## `src/server/main.go` -/

/-- A Go `error` value: `none` is `nil`, `some msg` an error whose `Error()` is `msg`. -/
abbrev GoError := Option String

/-- The two channels `main` selects on: `done1` from `gateway.Run()`, `done2` from
`api.Start()`. -/
inductive DoneChan where
  | done1
  | done2
  deriving DecidableEq, Repr

/-- The calls made on the collaborators of `main`, and the log lines. `gatewayStop` and
`apiStop` stand for `Stop()` on the gateway and on the api server; `main` contains no such
call (the only `gateway.Stop()` of the file is in the exit-signal handler). -/
inductive Effect where
  | log (line : LogLine)
  | osCreate (name : String)
  | StartCPUProfile
  | StopCPUProfile
  | cpuProfileClose
  | NewGateway
  | NewRest
  | setupExitSignalHandler
  | gatewayRun
  | apiStart
  | received (ch : DoneChan)
  | gatewayStop
  | apiStop
  | gatewayClose
  | apiClose
  | osExit (code : Nat)
  deriving DecidableEq, Repr

/-- What the collaborators of `main` answer in one execution: the configured profile file,
the error returned by each fallible call, the listen address returned by `api.Start()`, and
the done signals of the two subsystems in the order in which they become receivable. -/
structure World where
  CpuProfileFile : String
  osCreate : GoError
  NewGateway : GoError
  NewRest : GoError
  gatewayRun : GoError
  apiStart : GoError
  listenAddr : String
  doneSignals : List (DoneChan × GoError)
  deriving DecidableEq, Repr

/-- The `select` over `done1` and `done2`: it receives the done signal that arrives first and
no other; without any done signal it waits forever (`none`). -/
def selectDone : List (DoneChan × GoError) → Option (DoneChan × GoError)
  | [] => none
  | first :: _ => some first

/-- The statements of `main` from `var msg string` to the final `return`, for the signal
`err` received from `ch`. -/
def mainSupervise (ch : DoneChan) (err : GoError) : List Effect :=
  let msg :=
    match ch with
    | DoneChan.done1 => "gateway engine"
    | DoneChan.done2 => "api server"
  let narrative :=
    match err with
    | some e => LogLine.Warnf ("[exit from " ++ msg ++ " due to error: " ++ e ++ "]")
    | none => LogLine.Infof ("[exit from " ++ msg ++ " without error]")
  [Effect.received ch, Effect.log narrative, Effect.gatewayClose, Effect.apiClose,
    Effect.log (LogLine.Infof "[gateway exited normally]")]

/-- A `return` of `main`: the effects so far and the value of the variable `exitCode`. -/
structure MainReturn where
  trace : List Effect
  exitCode : Nat
  deriving DecidableEq, Repr

/-- The statements of `main` after the `defer`, up to whichever `return` is reached; `none`
when the `select` waits forever. -/
def mainAfterDefer (w : World) : Option MainReturn :=
  match w.NewGateway with
  | some err =>
    some ⟨[Effect.NewGateway,
      Effect.log (LogLine.Errorf ("[initialize gateway engine failed: " ++ err ++ "]"))], 2⟩
  | none =>
  match w.NewRest with
  | some err =>
    some ⟨[Effect.NewGateway, Effect.NewRest,
      Effect.log (LogLine.Errorf ("[initialize rest interface failed: " ++ err ++ "]"))], 3⟩
  | none =>
  match w.gatewayRun with
  | some err =>
    some ⟨[Effect.NewGateway, Effect.NewRest, Effect.setupExitSignalHandler, Effect.gatewayRun,
      Effect.log (LogLine.Errorf ("[start gateway engine failed: " ++ err ++ "]"))], 4⟩
  | none =>
  match w.apiStart with
  | some err =>
    some ⟨[Effect.NewGateway, Effect.NewRest, Effect.setupExitSignalHandler, Effect.gatewayRun,
      Effect.log (LogLine.Infof "[gateway engine started]"), Effect.apiStart,
      Effect.log (LogLine.Errorf
        ("[start rest interface at " ++ w.listenAddr ++ " failed: " ++ err ++ "]"))], 5⟩
  | none =>
  match selectDone w.doneSignals with
  | none => none
  | some (ch, err) =>
    some ⟨[Effect.NewGateway, Effect.NewRest, Effect.setupExitSignalHandler, Effect.gatewayRun,
      Effect.log (LogLine.Infof "[gateway engine started]"), Effect.apiStart,
      Effect.log (LogLine.Infof ("[rest interface started at " ++ w.listenAddr ++ "]"))]
      ++ mainSupervise ch err, 0⟩

/-- The deferred function of `main`, run when `main` returns after the `defer` statement;
`cpuProfileOpen` says whether the variable `cpuProfile` is non-nil. -/
def mainDeferred (w : World) (cpuProfileOpen : Bool) (exitCode : Nat) : List Effect :=
  (if w.CpuProfileFile ≠ "" then
    Effect.StopCPUProfile :: (if cpuProfileOpen then [Effect.cpuProfileClose] else [])
  else []) ++ [Effect.osExit exitCode]

/-- The function `main`: all effects of the execution, and the final value of the variable
`exitCode`; `none` when the `select` waits forever. The first `return` comes before the
`defer` statement, so the deferred function does not run on it. -/
def main (w : World) : Option MainReturn :=
  if w.CpuProfileFile ≠ "" then
    match w.osCreate with
    | some err =>
      some ⟨[Effect.osCreate w.CpuProfileFile,
        Effect.log (LogLine.Errorf ("[initialize cpu profile failed: " ++ err ++ "]"))], 1⟩
    | none =>
      (mainAfterDefer w).map fun ret =>
        ⟨[Effect.osCreate w.CpuProfileFile, Effect.StartCPUProfile,
          Effect.log (LogLine.Infof
            ("[cpu profiling started, output to " ++ w.CpuProfileFile ++ "]"))]
          ++ ret.trace ++ mainDeferred w true ret.exitCode, ret.exitCode⟩
  else
    (mainAfterDefer w).map fun ret =>
      ⟨ret.trace ++ mainDeferred w false ret.exitCode, ret.exitCode⟩

/-- Exit status of the process for the effects of `main`: the argument of the first
`os.Exit` executed, and 0 when `main` returns without any `os.Exit`. -/
def exitStatus : List Effect → Nat
  | [] => 0
  | Effect.osExit code :: _ => code
  | _ :: rest => exitStatus rest

/-- The log lines of a trace, in order. -/
def logLines : List Effect → List LogLine
  | [] => []
  | Effect.log line :: rest => line :: logLines rest
  | _ :: rest => logLines rest

/-- The signals registered with `signal.Notify`. -/
inductive Signal where
  | SIGHUP
  | SIGINT
  | SIGTERM
  | SIGQUIT
  deriving DecidableEq, Repr

/-- Text of a signal under the `%s` verb. -/
def Signal.String : Signal → String
  | Signal.SIGHUP => "hangup"
  | Signal.SIGINT => "interrupt"
  | Signal.SIGTERM => "terminated"
  | Signal.SIGQUIT => "quit"

/-- Whether the process is still running, has exited with a status through `os.Exit` or a
return of `main`, or has been brought down by an unrecovered panic. -/
inductive Proc where
  | running
  | exited (status : Nat)
  | panicked (msg : String)
  deriving DecidableEq, Repr

/-- Exit status of a process that is no longer running; the Go runtime ends a program that
dies of an unrecovered panic with status 2. -/
def Proc.exitStatus? : Proc → Option Nat
  | Proc.running => none
  | Proc.exited status => some status
  | Proc.panicked _ => some 2

/-- State of the goroutines started by `setupExitSignalHandler`: the loop variable `times`,
whether `sigChannel` is still open (neither closed nor set to nil), whether the handler
goroutine is still in its loop waiting on `<-sigChannel`, how many calls of `gateway.Stop()`
were made, whether the goroutine spawned in `case 0` is still inside `gateway.Stop()`, the
process, and the log. -/
structure SignalHandler where
  times : Nat
  sigChannelOpen : Bool
  listening : Bool
  stopCalls : Nat
  stopInFlight : Bool
  proc : Proc
  log : List LogLine
  deriving DecidableEq, Repr

/-- The state right after `setupExitSignalHandler(gateway)` has returned. -/
def setupExitSignalHandler : SignalHandler :=
  { times := 0, sigChannelOpen := true, listening := true, stopCalls := 0,
    stopInFlight := false, proc := Proc.running, log := [] }

/-- What can happen to the handler: an operator signal is delivered, the `gateway.Stop()`
called by the goroutine of `case 0` returns, or the process exits from `main`. -/
inductive HandlerEvent where
  | signal (sig : Signal)
  | stopReturns
  | mainExits (status : Nat)
  deriving DecidableEq, Repr

/-- One step of the handler.

* A signal received in the loop: with `times = 0` a goroutine is spawned that logs and calls
  `gateway.Stop()`, and the loop goes on with `times = 1`; with `times = 1` the handler logs,
  closes the channel and calls `os.Exit(255)`; the `switch` has no other case.
* When `gateway.Stop()` returns, its goroutine runs `close(sigChannel); sigChannel = nil`;
  the loop then receives `nil` and returns ("channel closed by normal exit process").
* The closed channel stays registered with `signal.Notify` (there is no `signal.Stop`), so
  the delivery of a later signal is a send on a closed channel inside `os/signal`: it
  panics with `send on closed channel`, also in a `select` with a `default` case, and the
  process dies of the panic.
* Nothing happens in a process that is no longer running. -/
def SignalHandler.step (h : SignalHandler) (e : HandlerEvent) : SignalHandler :=
  match h.proc with
  | Proc.exited _ => h
  | Proc.panicked _ => h
  | Proc.running =>
    match e with
    | HandlerEvent.signal sig =>
      if !h.sigChannelOpen then
        { h with proc := Proc.panicked "send on closed channel" }
      else if h.listening then
        match h.times with
        | 0 =>
          { h with
            times := 1
            stopCalls := h.stopCalls + 1
            stopInFlight := true
            log := h.log ++
              [LogLine.Infof ("[" ++ sig.String ++ " signal received, shutting down gateway]")] }
        | 1 =>
          { h with
            sigChannelOpen := false
            listening := false
            proc := Proc.exited 255
            log := h.log ++ [LogLine.Infof
              ("[" ++ sig.String ++ " signal received, terminating gateway immediately]")] }
        | n + 2 => { h with times := n + 3 }
      else h
    | HandlerEvent.stopReturns =>
      if h.stopInFlight then
        { h with stopInFlight := false, sigChannelOpen := false, listening := false }
      else h
    | HandlerEvent.mainExits status => { h with proc := Proc.exited status, listening := false }

/-- A sequence of events, applied in order. -/
def SignalHandler.run (h : SignalHandler) (events : List HandlerEvent) : SignalHandler :=
  events.foldl SignalHandler.step h

/-! ## Vocabulary of the statements -/

/-- Status of the response a handler wrote, if it returned. -/
def HandlerResult.status? : HandlerResult → Option Nat
  | HandlerResult.responded resp => some resp.status
  | HandlerResult.panicked _ => none

/-- Both subsystems start: profiling, if configured, could be set up, and `NewGateway`,
`NewRest`, `gateway.Run()` and `api.Start()` all return a nil error. -/
def World.started (w : World) : Prop :=
  (w.CpuProfileFile = "" ∨ w.osCreate = none) ∧ w.NewGateway = none ∧ w.NewRest = none ∧
    w.gatewayRun = none ∧ w.apiStart = none

instance (w : World) : Decidable w.started := by
  unfold World.started
  exact inferInstance

/-- The name under which the exit narrative mentions the subsystem behind a done channel. -/
def subsystemName : DoneChan → String
  | DoneChan.done1 => "gateway engine"
  | DoneChan.done2 => "api server"

/-- The exit narrative as the statements describe it: it names the subsystem whose done
signal was received and says `due to error: e` (a warning) for a non-nil error `e`, and
`without error` (an information) for a nil error. -/
def exitNarrative (ch : DoneChan) : GoError → LogLine
  | some e => LogLine.Warnf ("[exit from " ++ subsystemName ch ++ " due to error: " ++ e ++ "]")
  | none => LogLine.Infof ("[exit from " ++ subsystemName ch ++ " without error]")

/-- The log lines `main` writes until both subsystems have started. -/
def startupLog (w : World) : List LogLine :=
  (if w.CpuProfileFile ≠ "" then
    [LogLine.Infof ("[cpu profiling started, output to " ++ w.CpuProfileFile ++ "]")]
  else []) ++
  [LogLine.Infof "[gateway engine started]",
    LogLine.Infof ("[rest interface started at " ++ w.listenAddr ++ "]")]

/-- A world in which both subsystems start and the done signal of the gateway engine fires
with the cause `listener closed`. -/
def listenerClosedWorld : World :=
  { CpuProfileFile := "", osCreate := none, NewGateway := none, NewRest := none,
    gatewayRun := none, apiStart := none, listenAddr := "127.0.0.1:9090",
    doneSignals := [(DoneChan.done1, some "listener closed")] }

/-- A world in which the gateway engine starts and `api.Start()` then fails. -/
def apiStartFailsWorld : World :=
  { CpuProfileFile := "", osCreate := none, NewGateway := none, NewRest := none,
    gatewayRun := none, apiStart := some "address already in use",
    listenAddr := "127.0.0.1:9090", doneSignals := [] }

/-- A world in which a CPU profile file is configured and `os.Create` fails on it. -/
def cpuProfileFailsWorld : World :=
  { CpuProfileFile := "/nonexistent/cpu.prof", osCreate := some "no such file or directory",
    NewGateway := none, NewRest := none, gatewayRun := none, apiStart := none,
    listenAddr := "127.0.0.1:9090", doneSignals := [(DoneChan.done1, none)] }

/-- Two service instances on which the two sort keys disagree. -/
def instanceA2 : ServiceInstanceSpec :=
  { ServiceName := "a", InstanceID := "2", Status := "UP", Others := [] }

/-- See `instanceA2`. -/
def instanceB1 : ServiceInstanceSpec :=
  { ServiceName := "b", InstanceID := "1", Status := "UP", Others := [] }

/-- An `API` whose store holds the given specs; conversion and marshalling never fail (the
converted form of a spec is the spec itself, its JSON text is left empty). -/
def storeAPI (specs : List ServiceInstanceSpec) : API ServiceInstanceSpec :=
  { ListAllServiceInstanceSpecs := specs
    GetServiceInstanceSpec := fun serviceName instanceID =>
      specs.find? (fun s => decide (s.ServiceName = serviceName ∧ s.InstanceID = instanceID))
    convertSpecToPB := fun s => Except.ok s
    jsonMarshal := fun _ => Except.ok ""
    ServiceStatusOutOfService := "OUT_OF_SERVICE" }

/-! ## Properties: Go runtime pieces -/

theorem stringLess_iff (a b : String) : stringLess a b = true ↔ a < b := by
  unfold stringLess
  rw [decide_eq_true_iff]
  exact String.lt_iff_toList_lt.symm

theorem mem_insertionSortInner {α : Type} (less : α → α → Bool) (x z : α) (l : List α) :
    z ∈ insertionSortInner less x l ↔ z = x ∨ z ∈ l := by
  induction l with
  | nil => simp [insertionSortInner]
  | cons y rest ih =>
    unfold insertionSortInner
    split
    · simp only [List.mem_cons, ih]
      tauto
    · simp only [List.mem_cons]

theorem insertionSortInner_perm {α : Type} (less : α → α → Bool) (x : α) (l : List α) :
    (insertionSortInner less x l).Perm (x :: l) := by
  induction l with
  | nil => simp [insertionSortInner]
  | cons y rest ih =>
    unfold insertionSortInner
    split
    · exact (List.Perm.cons y ih).trans (List.Perm.swap x y rest)
    · exact List.Perm.refl _

theorem foldl_insertionSortInner_perm {α : Type} (less : α → α → Bool) (data acc : List α) :
    (data.foldl (fun sorted x => insertionSortInner less x sorted) acc).Perm
      (data ++ acc) := by
  induction data generalizing acc with
  | nil => simp
  | cons x rest ih =>
    simp only [List.foldl_cons, List.cons_append]
    refine (ih _).trans ?_
    refine (List.Perm.append_left rest (insertionSortInner_perm less x acc)).trans ?_
    exact List.perm_middle

/-- The result of `sortSort` is a rearrangement of its input, whatever `less` is. -/
theorem sortSort_perm {α : Type} (less : α → α → Bool) (data : List α) :
    (sortSort less data).Perm data := by
  unfold sortSort
  refine (List.reverse_perm _).trans ?_
  simpa using foldl_insertionSortInner_perm less data []

theorem insertionSortInner_descending {α : Type} (key : α → String) (x : α) (l : List α)
    (h : l.Pairwise (fun a b => key b ≤ key a)) :
    (insertionSortInner (fun a b => stringLess (key a) (key b)) x l).Pairwise
      (fun a b => key b ≤ key a) := by
  induction l with
  | nil => simp [insertionSortInner]
  | cons y rest ih =>
    rw [List.pairwise_cons] at h
    unfold insertionSortInner
    split
    · rename_i hlt
      rw [stringLess_iff] at hlt
      rw [List.pairwise_cons]
      refine ⟨?_, ih h.2⟩
      intro z hz
      rw [mem_insertionSortInner] at hz
      rcases hz with rfl | hz
      · exact le_of_lt hlt
      · exact h.1 z hz
    · rename_i hlt
      rw [stringLess_iff, not_lt] at hlt
      rw [List.pairwise_cons, List.pairwise_cons]
      refine ⟨?_, h⟩
      intro z hz
      rcases List.mem_cons.1 hz with rfl | hz
      · exact hlt
      · exact le_trans (h.1 z hz) hlt

theorem foldl_insertionSortInner_descending {α : Type} (key : α → String) (data acc : List α)
    (h : acc.Pairwise (fun a b => key b ≤ key a)) :
    (data.foldl
      (fun sorted x =>
        insertionSortInner (fun a b => stringLess (key a) (key b)) x sorted) acc).Pairwise
      (fun a b => key b ≤ key a) := by
  induction data generalizing acc with
  | nil => simpa using h
  | cons x rest ih =>
    simp only [List.foldl_cons]
    exact ih _ (insertionSortInner_descending key x acc h)

/-- Sorting by a string key with `less a b := key a < key b` leaves the keys ascending. -/
theorem sortSort_ascending {α : Type} (key : α → String) (data : List α) :
    (sortSort (fun a b => stringLess (key a) (key b)) data).Pairwise
      (fun a b => key a ≤ key b) := by
  unfold sortSort
  rw [List.pairwise_reverse]
  exact foldl_insertionSortInner_descending key data [] List.Pairwise.nil

/-! ## Properties: the Go map -/

theorem mapLookup_mapDelete {β : Type} (m : List (String × β)) (k k' : String) :
    mapLookup (mapDelete m k) k' = if k = k' then none else mapLookup m k' := by
  induction m with
  | nil => simp [mapDelete, mapLookup]
  | cons kv rest ih =>
    obtain ⟨k0, v0⟩ := kv
    unfold mapDelete at ih ⊢
    by_cases h0 : k0 = k
    · subst h0
      simp only [List.filter_cons, ne_eq, not_true_eq_false, decide_False, Bool.false_eq_true,
        if_false, ih, mapLookup]
      by_cases h1 : k0 = k' <;> simp [h1]
    · simp only [List.filter_cons, ne_eq, h0, not_false_eq_true, decide_True, if_true, mapLookup,
        ih]
      by_cases h1 : k = k'
      · subst h1
        simp [h0]
      · simp [h1]

theorem mapLookup_mapStore {β : Type} (m : List (String × β)) (k k' : String) (v : β) :
    mapLookup (mapStore m k v) k' = if k = k' then some v else mapLookup m k' := by
  unfold mapStore
  by_cases h : k = k'
  · simp [mapLookup, h]
  · simp [mapLookup, h, mapLookup_mapDelete]

theorem apisWellFormed_mapDelete (m : List (String × APIGroup)) (k : String)
    (h : apisWellFormed m) : apisWellFormed (mapDelete m k) := by
  unfold mapDelete
  refine ⟨?_, ?_⟩
  · exact List.Nodup.sublist (List.Sublist.map _ (List.filter_sublist m)) h.1
  · intro kv hkv
    exact h.2 kv (List.mem_of_mem_filter hkv)

theorem not_mem_keys_mapDelete {β : Type} (m : List (String × β)) (k : String) :
    k ∉ (mapDelete m k).map Prod.fst := by
  unfold mapDelete
  intro hk
  rw [List.mem_map] at hk
  obtain ⟨kv, hkv, hk⟩ := hk
  have := (List.mem_filter.1 hkv).2
  simp [hk] at this

theorem apisWellFormed_mapStore (m : List (String × APIGroup)) (g : APIGroup)
    (h : apisWellFormed m) : apisWellFormed (mapStore m g.Group g) := by
  have hd := apisWellFormed_mapDelete m g.Group h
  unfold mapStore
  refine ⟨?_, ?_⟩
  · rw [List.map_cons, List.nodup_cons]
    exact ⟨not_mem_keys_mapDelete m g.Group, hd.1⟩
  · intro kv hkv
    rcases List.mem_cons.1 hkv with rfl | hkv
    · rfl
    · exact hd.2 kv hkv

theorem mem_iff_mapLookup {β : Type} (m : List (String × β)) (hm : (m.map Prod.fst).Nodup)
    (k : String) (v : β) : (k, v) ∈ m ↔ mapLookup m k = some v := by
  induction m with
  | nil => simp [mapLookup]
  | cons kv rest ih =>
    obtain ⟨k0, v0⟩ := kv
    rw [List.map_cons, List.nodup_cons] at hm
    simp only [mapLookup, List.mem_cons, Prod.mk.injEq]
    by_cases h0 : k0 = k
    · subst h0
      simp only [true_and, if_true, Option.some.injEq]
      constructor
      · rintro (h | h)
        · exact h.symm
        · exact absurd (List.mem_map_of_mem Prod.fst h) hm.1
      · intro h
        exact Or.inl h.symm
    · simp only [h0, if_false, ← ih hm.2]
      constructor
      · rintro (h | h)
        · exact absurd h.1.symm h0
        · exact h
      · intro h
        exact Or.inr h

/-! ## Properties: the registry of `pkg/api/api.go` -/

theorem sendChange_apis (r r' : Registry) (h : sendChange r = some r') :
    r'.apis = r.apis ∧ r'.log = r.log ∧ r'.apisChangeChan = r.apisChangeChan + 1 ∧
      r.apisChangeChan < apisChangeChanCap := by
  unfold sendChange at h
  split at h
  · rename_i hlt
    cases h
    exact ⟨rfl, rfl, rfl, hlt⟩
  · cases h

theorem RegisterAPIs_apis (r r' : Registry) (g : APIGroup) (h : RegisterAPIs r g = some r') :
    r'.apis = mapStore r.apis g.Group g := by
  unfold RegisterAPIs at h
  exact (sendChange_apis _ _ h).1

theorem UnregisterAPIs_lookup (r r' : Registry) (n : String)
    (h : UnregisterAPIs r n = some r') (hw : apisWellFormed r.apis) :
    apisWellFormed r'.apis ∧
      ∀ name, mapLookup r'.apis name = if n = name then none else mapLookup r.apis name := by
  unfold UnregisterAPIs at h
  simp only at h
  split at h
  · rename_i hex
    cases h
    refine ⟨hw, ?_⟩
    intro name
    by_cases hn : n = name
    · subst hn
      simp only [if_true]
      cases hl : mapLookup r.apis n with
      | none => rfl
      | some v => simp [hl] at hex
    · simp [hn]
  · have ha := (sendChange_apis _ _ h).1
    simp only at ha
    rw [ha]
    exact ⟨apisWellFormed_mapDelete _ _ hw, fun name => mapLookup_mapDelete _ _ _⟩

theorem receiveChange_apis (r r' : Registry) (h : receiveChange r = some r') :
    r'.apis = r.apis := by
  unfold receiveChange at h
  split at h
  · cases h
    rfl
  · cases h

/-- Lookup in the map after a run of calls: the map stays well formed, and under every name
it holds what the calls, replayed over the initial binding, leave there. -/
theorem runCalls_lookup (calls : List Call) :
    ∀ (r0 r : Registry), runCalls calls r0 = some r → apisWellFormed r0.apis →
      apisWellFormed r.apis ∧
      ∀ name, mapLookup r.apis name =
        calls.foldl
          (fun cur c =>
            match c with
            | Call.register g => if g.Group = name then some g else cur
            | Call.unregister n => if n = name then none else cur
            | Call.receive => cur)
          (mapLookup r0.apis name) := by
  induction calls with
  | nil =>
    intro r0 r h hw
    simp only [runCalls, Option.some.injEq] at h
    subst h
    exact ⟨hw, fun _ => rfl⟩
  | cons c cs ih =>
    intro r0 r h hw
    simp only [runCalls] at h
    cases hc : c.apply r0 with
    | none => simp [hc] at h
    | some r1 =>
      rw [hc] at h
      simp only [Option.some_bind] at h
      cases c with
      | register g =>
        have ha := RegisterAPIs_apis r0 r1 g hc
        have hw1 : apisWellFormed r1.apis := ha ▸ apisWellFormed_mapStore _ g hw
        obtain ⟨hwr, hl⟩ := ih r1 r h hw1
        refine ⟨hwr, fun name => ?_⟩
        rw [hl name, List.foldl_cons, ha, mapLookup_mapStore]
      | unregister n =>
        obtain ⟨hw1, hl1⟩ := UnregisterAPIs_lookup r0 r1 n hc hw
        obtain ⟨hwr, hl⟩ := ih r1 r h hw1
        refine ⟨hwr, fun name => ?_⟩
        rw [hl name, List.foldl_cons, hl1 name]
      | receive =>
        have ha := receiveChange_apis r0 r1 hc
        obtain ⟨hwr, hl⟩ := ih r1 r h (ha ▸ hw)
        refine ⟨hwr, fun name => ?_⟩
        rw [hl name, List.foldl_cons, ha]

theorem runCalls_empty_lookup (calls : List Call) (r : Registry)
    (h : runCalls calls emptyRegistry = some r) :
    apisWellFormed r.apis ∧ ∀ name, mapLookup r.apis name = registeredGroup calls name := by
  have hw : apisWellFormed emptyRegistry.apis := by
    simp [apisWellFormed, emptyRegistry]
  exact runCalls_lookup calls emptyRegistry r h hw

theorem foldl_append_singleton {α β : Type} (f : α → β) (l : List α) (acc : List β) :
    l.foldl (fun acc kv => acc ++ [f kv]) acc = acc ++ l.map f := by
  induction l generalizing acc with
  | nil => simp
  | cons x rest ih => simp [ih]

theorem listAPIs_perm (visit : List (String × APIGroup)) :
    (listAPIs visit).Perm (visit.map Prod.snd) := by
  unfold listAPIs
  have := foldl_append_singleton (Prod.snd : String × APIGroup → APIGroup) visit []
  simp only [List.nil_append] at this
  simp only [this]
  exact sortSort_perm _ _

theorem eq_singleton_of_nodup {α : Type} (l : List α) (g : α) (hn : l.Nodup)
    (hall : ∀ x ∈ l, x = g) (hg : g ∈ l) : l = [g] := by
  match l, hn, hall, hg with
  | [], _, _, hg => simp at hg
  | [a], _, hall, _ => rw [hall a (by simp)]
  | a :: b :: t, hn, hall, _ =>
    have ha := hall a (by simp)
    have hb := hall b (by simp)
    rw [List.nodup_cons] at hn
    exact absurd (by simp [ha, hb]) hn.1

theorem mem_listAPIs_iff (calls : List Call) (r : Registry) (visit : List (String × APIGroup))
    (hrun : runCalls calls emptyRegistry = some r) (hvisit : visit.Perm r.apis) (g : APIGroup) :
    g ∈ listAPIs visit ↔ registeredGroup calls g.Group = some g := by
  obtain ⟨hw, hl⟩ := runCalls_empty_lookup calls r hrun
  rw [(listAPIs_perm visit).mem_iff, (hvisit.map Prod.snd).mem_iff, ← hl g.Group,
    ← mem_iff_mapLookup r.apis hw.1]
  constructor
  · intro hg
    obtain ⟨kv, hkv, rfl⟩ := List.mem_map.1 hg
    have hk := hw.2 kv hkv
    rw [hk]
    exact hkv
  · intro hg
    exact List.mem_map.2 ⟨(g.Group, g), hg, rfl⟩

theorem listAPIs_strictly_ascending (calls : List Call) (r : Registry)
    (visit : List (String × APIGroup))
    (hrun : runCalls calls emptyRegistry = some r) (hvisit : visit.Perm r.apis) :
    (listAPIs visit).Pairwise (fun a b => a.Group < b.Group) := by
  obtain ⟨hw, _⟩ := runCalls_empty_lookup calls r hrun
  have hkeys : (r.apis.map Prod.snd).map APIGroup.Group = r.apis.map Prod.fst := by
    rw [List.map_map]
    exact List.map_congr_left (fun kv hkv => hw.2 kv hkv)
  have hnodup : ((listAPIs visit).map APIGroup.Group).Nodup := by
    have hp := ((listAPIs_perm visit).trans (hvisit.map Prod.snd)).map APIGroup.Group
    rw [hp.nodup_iff, hkeys]
    exact hw.1
  have hne : (listAPIs visit).Pairwise (fun a b => a.Group ≠ b.Group) :=
    List.pairwise_map.1 hnodup
  have hle : (listAPIs visit).Pairwise (fun a b => a.Group ≤ b.Group) := by
    have h := sortSort_ascending APIGroup.Group
      (visit.foldl (fun acc kv => acc ++ [kv.2]) [])
    exact h
  exact (hle.and hne).imp (fun h => lt_of_le_of_ne h.1 h.2)

/-- The list of `listAPIs` does not depend on how `sort.Sort` sorts: any rearrangement of the
collected groups that has no pair out of order under `apisbyOrder.Less` is the list that
`listAPIs` builds. -/
theorem listAPIs_sort_independent (calls : List Call) (r : Registry)
    (visit : List (String × APIGroup))
    (hrun : runCalls calls emptyRegistry = some r) (hvisit : visit.Perm r.apis)
    (out : List APIGroup) (hperm : out.Perm (visit.map Prod.snd))
    (hsorted : out.Pairwise (fun a b => apisbyOrder.Less b a = false)) :
    out = listAPIs visit := by
  have hasc := listAPIs_strictly_ascending calls r visit hrun hvisit
  have hp : out.Perm (listAPIs visit) := hperm.trans (listAPIs_perm visit).symm
  have hne : out.Pairwise (fun a b => a.Group ≠ b.Group) := by
    have hnodup : ((listAPIs visit).map APIGroup.Group).Nodup :=
      List.pairwise_map.2 (hasc.imp (fun h => ne_of_lt h))
    exact List.pairwise_map.1 (((hp.map APIGroup.Group).nodup_iff).2 hnodup)
  have hout : out.Pairwise (fun a b => a.Group < b.Group) := by
    refine (hsorted.and hne).imp ?_
    intro a b h
    have hnlt : ¬ b.Group < a.Group := by
      intro hlt
      have := (stringLess_iff b.Group a.Group).2 hlt
      have h1 : stringLess b.Group a.Group = false := h.1
      rw [h1] at this
      cases this
    exact lt_of_le_of_ne (not_lt.1 hnlt) h.2
  have hanti : IsAntisymm APIGroup (fun a b => a.Group < b.Group) :=
    ⟨fun a b h1 h2 => absurd h1 (lt_asymm h2)⟩
  exact List.eq_of_perm_of_sorted hp hout hasc

/-- C1: after any finite sequence of `RegisterAPIs`/`UnregisterAPIs` calls on the empty
registry in which no call blocks (watchers may take events out of the change queue in
between), and for any iteration order of the map, the list built by `listAPIs` is strictly
ascending by `Group`, and under every name it holds exactly the group registered and not
subsequently unregistered under that name (the most recently registered descriptor), once,
or nothing when there is none. -/
theorem listAPIs_registered_sorted (calls : List Call) (r : Registry)
    (visit : List (String × APIGroup))
    (hrun : runCalls calls emptyRegistry = some r) (hvisit : visit.Perm r.apis) :
    (listAPIs visit).Pairwise (fun a b => a.Group < b.Group) ∧
    ∀ name, (listAPIs visit).filter (fun g => decide (g.Group = name)) =
      (registeredGroup calls name).toList := by
  have hasc := listAPIs_strictly_ascending calls r visit hrun hvisit
  refine ⟨hasc, fun name => ?_⟩
  have hmem := mem_listAPIs_iff calls r visit hrun hvisit
  have hnodup : (listAPIs visit).Nodup :=
    hasc.imp (fun h heq => absurd (congrArg APIGroup.Group heq) (ne_of_lt h))
  cases hreg : registeredGroup calls name with
  | none =>
    rw [Option.toList, List.filter_eq_nil_iff]
    intro g hg hname
    have hname' : g.Group = name := of_decide_eq_true hname
    have := (hmem g).1 hg
    rw [hname', hreg] at this
    cases this
  | some g0 =>
    rw [Option.toList]
    have hw := (runCalls_empty_lookup calls r hrun)
    have hg0name : g0.Group = name := by
      have h1 : mapLookup r.apis name = some g0 := by rw [hw.2 name, hreg]
      have h2 := (mem_iff_mapLookup r.apis hw.1.1 name g0).2 h1
      exact hw.1.2 _ h2
    apply eq_singleton_of_nodup
    · exact hnodup.sublist (List.filter_sublist _)
    · intro g hg
      obtain ⟨hg1, hg2⟩ := List.mem_filter.1 hg
      have hname' : g.Group = name := of_decide_eq_true hg2
      have := (hmem g).1 hg1
      rw [hname', hreg] at this
      exact (Option.some.inj this).symm
    · refine List.mem_filter.2 ⟨?_, decide_eq_true hg0name⟩
      rw [hmem g0, hg0name, hreg]

/-- C1, the scenario of the specification: `RegisterAPIs` of the group `admin` on the empty
registry does not block, and `listAPIs` then builds the one-element list of that group. -/
theorem listAPIs_registered_sorted_witness :
    runCalls [Call.register ⟨"admin", [⟨"/healthz", "GET", 0⟩]⟩] emptyRegistry =
        some ⟨[("admin", ⟨"admin", [⟨"/healthz", "GET", 0⟩]⟩)], 1,
          [LogLine.Infof "register api group admin"]⟩ ∧
      listAPIs [("admin", ⟨"admin", [⟨"/healthz", "GET", 0⟩]⟩)] =
        [⟨"admin", [⟨"/healthz", "GET", 0⟩]⟩] ∧
      ((listAPIs [("admin", ⟨"admin", [⟨"/healthz", "GET", 0⟩]⟩)]).Pairwise
          (fun a b => a.Group < b.Group) ∧
        ∀ name,
          (listAPIs [("admin", ⟨"admin", [⟨"/healthz", "GET", 0⟩]⟩)]).filter
              (fun g => decide (g.Group = name)) =
            (registeredGroup [Call.register ⟨"admin", [⟨"/healthz", "GET", 0⟩]⟩] name).toList) :=
  ⟨by decide, by decide,
    listAPIs_registered_sorted [Call.register ⟨"admin", [⟨"/healthz", "GET", 0⟩]⟩]
      ⟨[("admin", ⟨"admin", [⟨"/healthz", "GET", 0⟩]⟩)], 1,
        [LogLine.Infof "register api group admin"]⟩
      [("admin", ⟨"admin", [⟨"/healthz", "GET", 0⟩]⟩)] (by decide) (List.Perm.refl _)⟩

/-- C2: for every registry state and every name that is not registered, `UnregisterAPIs`
returns, leaves the map `apis` unchanged, leaves the number of pending change events
unchanged, and reports the not-found anomaly in the log. -/
theorem UnregisterAPIs_not_registered (r : Registry) (group : String)
    (h : mapLookup r.apis group = none) :
    ∃ r', UnregisterAPIs r group = some r' ∧ r'.apis = r.apis ∧
      r'.apisChangeChan = r.apisChangeChan ∧
      r'.log = r.log ++ [LogLine.Errorf ("group " ++ group ++ " not found")] := by
  refine ⟨{ r with log := r.log ++ [LogLine.Errorf ("group " ++ group ++ " not found")] },
    ?_, rfl, rfl, rfl⟩
  unfold UnregisterAPIs
  simp [h]

/-- C2 at a concrete state: with `admin` registered and ten events pending, unregistering the
unknown name `mesh` changes nothing but the log. -/
theorem UnregisterAPIs_not_registered_witness :
    mapLookup [("admin", (⟨"admin", []⟩ : APIGroup))] "mesh" = none ∧
      ∃ r', UnregisterAPIs ⟨[("admin", ⟨"admin", []⟩)], 10, []⟩ "mesh" = some r' ∧
        r'.apis = [("admin", ⟨"admin", []⟩)] ∧ r'.apisChangeChan = 10 ∧
        r'.log = [] ++ [LogLine.Errorf ("group " ++ "mesh" ++ " not found")] :=
  ⟨by decide,
    UnregisterAPIs_not_registered ⟨[("admin", ⟨"admin", []⟩)], 10, []⟩ "mesh" (by decide)⟩

theorem RegisterAPIs_chan (r r' : Registry) (g : APIGroup) (h : RegisterAPIs r g = some r') :
    r'.apisChangeChan = r.apisChangeChan + 1 := by
  unfold RegisterAPIs at h
  exact (sendChange_apis _ _ h).2.2.1

theorem UnregisterAPIs_chan (r r' : Registry) (n : String) (h : UnregisterAPIs r n = some r') :
    r'.apisChangeChan =
      if (mapLookup r.apis n).isSome then r.apisChangeChan + 1 else r.apisChangeChan := by
  unfold UnregisterAPIs at h
  simp only at h
  split at h
  · rename_i hex
    cases h
    simp only [Bool.not_eq_true'] at hex
    simp [hex]
  · rename_i hex
    simp only [Bool.not_eq_true', Bool.not_eq_false] at hex
    rw [(sendChange_apis _ _ h).2.2.1]
    simp [hex]

/-- With fewer than 10 events pending, `RegisterAPIs` returns, and so does `UnregisterAPIs`
of a registered name, each with one event more in the queue. -/
theorem registry_send_one_event (r : Registry) (h : r.apisChangeChan < 10) :
    (∀ g, ∃ r', RegisterAPIs r g = some r' ∧ r'.apisChangeChan = r.apisChangeChan + 1) ∧
    (∀ n, (mapLookup r.apis n).isSome = true →
      ∃ r', UnregisterAPIs r n = some r' ∧ r'.apisChangeChan = r.apisChangeChan + 1) := by
  refine ⟨?_, ?_⟩
  · intro g
    have hs : (RegisterAPIs r g).isSome = true := by
      unfold RegisterAPIs sendChange apisChangeChanCap
      simp [h]
    obtain ⟨r', hr'⟩ := Option.isSome_iff_exists.1 hs
    exact ⟨r', hr', RegisterAPIs_chan r r' g hr'⟩
  · intro n hn
    have hs : (UnregisterAPIs r n).isSome = true := by
      unfold UnregisterAPIs sendChange apisChangeChanCap
      simp [h, hn]
    obtain ⟨r', hr'⟩ := Option.isSome_iff_exists.1 hs
    refine ⟨r', hr', ?_⟩
    rw [UnregisterAPIs_chan r r' n hr']
    simp [hn]

/-- No call blocks when the change queue is drained: every sequence of `RegisterAPIs` and
`UnregisterAPIs` calls, run from a state with an empty queue with the watcher of `drained`
in between, runs to the end, and `drained` adds nothing but the watcher's steps. -/
theorem runCalls_drained (calls : List Call) :
    ∀ r : Registry, r.apisChangeChan = 0 → (∀ c ∈ calls, c ≠ Call.receive) →
      (∃ r', runCalls (drained calls r) r = some r' ∧ r'.apisChangeChan = 0) ∧
      (drained calls r).filter (fun c => decide (c ≠ Call.receive)) = calls := by
  induction calls with
  | nil =>
    intro r hr _
    exact ⟨⟨r, rfl, hr⟩, rfl⟩
  | cons c cs ih =>
    intro r hr hc
    have hc0 : c ≠ Call.receive := hc c (List.mem_cons_self _ _)
    have hcs : ∀ c' ∈ cs, c' ≠ Call.receive := fun c' h => hc c' (List.mem_cons_of_mem _ h)
    have hstep : ∃ r1, c.apply r = some r1 ∧ r1.apisChangeChan ≤ 1 := by
      cases c with
      | register g =>
        obtain ⟨r1, h1, h2⟩ := (registry_send_one_event r (by omega)).1 g
        exact ⟨r1, h1, by omega⟩
      | unregister n =>
        cases hl : mapLookup r.apis n with
        | none =>
          refine ⟨{ r with log := r.log ++ [LogLine.Errorf ("group " ++ n ++ " not found")] },
            ?_, by simp [hr]⟩
          simp [Call.apply, UnregisterAPIs, hl]
        | some g =>
          obtain ⟨r1, h1, h2⟩ :=
            (registry_send_one_event r (by omega)).2 n (by simp [hl])
          exact ⟨r1, h1, by omega⟩
      | receive => exact absurd rfl hc0
    obtain ⟨r1, h1, h2⟩ := hstep
    by_cases hpos : 0 < r1.apisChangeChan
    · have hd : drained (c :: cs) r =
          c :: Call.receive :: drained cs { r1 with apisChangeChan := r1.apisChangeChan - 1 } := by
        simp [drained, h1, hpos]
      obtain ⟨⟨r', hr', hz⟩, hf⟩ :=
        ih { r1 with apisChangeChan := r1.apisChangeChan - 1 } (by simp; omega) hcs
      rw [hd]
      refine ⟨⟨r', ?_, hz⟩, ?_⟩
      · simp only [runCalls]
        rw [h1]
        simp [Call.apply, receiveChange, hpos, hr']
      · rw [List.filter_cons_of_pos (by simpa using hc0), List.filter_cons_of_neg (by simp), hf]
    · have hd : drained (c :: cs) r = c :: drained cs r1 := by
        simp [drained, h1, hpos]
      obtain ⟨⟨r', hr', hz⟩, hf⟩ := ih r1 (by omega) hcs
      rw [hd]
      refine ⟨⟨r', ?_, hz⟩, ?_⟩
      · simp only [runCalls]
        rw [h1]
        simpa using hr'
      · rw [List.filter_cons_of_pos (by simpa using hc0), hf]

/-- C3: in a state with fewer than 10 pending change events, every `RegisterAPIs` call
(whether or not the name exists) and every `UnregisterAPIs` call for a registered name
returns with exactly one event more in the queue; and in any state whatsoever, a registry
call that returns has added at most one event. -/
theorem registry_call_adds_one_event (r : Registry) (h : r.apisChangeChan < 10) :
    (∀ g, ∃ r', RegisterAPIs r g = some r' ∧ r'.apisChangeChan = r.apisChangeChan + 1) ∧
    (∀ n, (mapLookup r.apis n).isSome = true →
      ∃ r', UnregisterAPIs r n = some r' ∧ r'.apisChangeChan = r.apisChangeChan + 1) ∧
    (∀ (r0 r' : Registry) g, RegisterAPIs r0 g = some r' →
      r'.apisChangeChan ≤ r0.apisChangeChan + 1) ∧
    (∀ (r0 r' : Registry) n, UnregisterAPIs r0 n = some r' →
      r'.apisChangeChan ≤ r0.apisChangeChan + 1) := by
  refine ⟨(registry_send_one_event r h).1, (registry_send_one_event r h).2,
    ?_, ?_⟩
  · intro r0 r' g hr
    exact le_of_eq (RegisterAPIs_chan r0 r' g hr)
  · intro r0 r' n hr
    rw [UnregisterAPIs_chan r0 r' n hr]
    split <;> omega

/-- C3 at a concrete state: with `admin` registered and nine events pending, registering
`admin` again, registering `mesh` and unregistering `admin` each leave ten events pending. -/
theorem registry_call_adds_one_event_witness :
    (9 < 10) ∧
      RegisterAPIs ⟨[("admin", ⟨"admin", []⟩)], 9, []⟩ ⟨"admin", []⟩ =
        some ⟨[("admin", ⟨"admin", []⟩)], 10,
          [LogLine.Errorf "group admin existed", LogLine.Infof "register api group admin"]⟩ ∧
      UnregisterAPIs ⟨[("admin", ⟨"admin", []⟩)], 9, []⟩ "admin" =
        some ⟨[], 10, [LogLine.Infof "unregister api group admin"]⟩ ∧
      ((∀ g, ∃ r', RegisterAPIs ⟨[("admin", ⟨"admin", []⟩)], 9, []⟩ g = some r' ∧
          r'.apisChangeChan = 9 + 1) ∧
        (∀ n, (mapLookup [("admin", (⟨"admin", []⟩ : APIGroup))] n).isSome = true →
          ∃ r', UnregisterAPIs ⟨[("admin", ⟨"admin", []⟩)], 9, []⟩ n = some r' ∧
            r'.apisChangeChan = 9 + 1) ∧
        (∀ (r0 r' : Registry) g, RegisterAPIs r0 g = some r' →
          r'.apisChangeChan ≤ r0.apisChangeChan + 1) ∧
        (∀ (r0 r' : Registry) n, UnregisterAPIs r0 n = some r' →
          r'.apisChangeChan ≤ r0.apisChangeChan + 1)) :=
  ⟨by decide, by decide, by decide,
    registry_call_adds_one_event ⟨[("admin", ⟨"admin", []⟩)], 9, []⟩ (by decide)⟩

/-! ## Properties: `main` of `src/server/main.go` -/

/-- What `main` does once both subsystems have started and a first done signal `err` is
received from `ch`: the complete execution, whatever done signals follow. -/
theorem main_started (w : World) (hs : w.started) (ch : DoneChan) (err : GoError)
    (rest : List (DoneChan × GoError)) (hd : w.doneSignals = (ch, err) :: rest) :
    ∃ p, main w = some p ∧ main { w with doneSignals := [(ch, err)] } = some p ∧
      p.exitCode = 0 ∧ exitStatus p.trace = 0 ∧
      logLines p.trace =
        startupLog w ++ [exitNarrative ch err, LogLine.Infof "[gateway exited normally]"] ∧
      p.trace.count Effect.gatewayClose = 1 ∧ p.trace.count Effect.apiClose = 1 ∧
      p.trace.count Effect.gatewayStop = 0 ∧ p.trace.count Effect.apiStop = 0 := by
  obtain ⟨hcpu, hg, hr, hrun, hstart⟩ := hs
  by_cases hfile : w.CpuProfileFile = ""
  · refine ⟨⟨[Effect.NewGateway, Effect.NewRest, Effect.setupExitSignalHandler,
      Effect.gatewayRun, Effect.log (LogLine.Infof "[gateway engine started]"), Effect.apiStart,
      Effect.log (LogLine.Infof ("[rest interface started at " ++ w.listenAddr ++ "]"))]
      ++ mainSupervise ch err ++ mainDeferred w false 0, 0⟩, ?_, ?_, ?_⟩
    · simp only [main, mainAfterDefer, hfile, hg, hr, hrun, hstart, hd, selectDone]
      simp
    · simp only [main, mainAfterDefer, hfile, hg, hr, hrun, hstart, selectDone]
      simp [mainDeferred, hfile]
    · cases ch <;> cases err <;>
        simp [mainSupervise, mainDeferred, hfile, exitStatus, logLines, startupLog,
          exitNarrative, subsystemName]
  · have hcreate : w.osCreate = none := hcpu.resolve_left hfile
    refine ⟨⟨[Effect.osCreate w.CpuProfileFile, Effect.StartCPUProfile,
      Effect.log (LogLine.Infof
        ("[cpu profiling started, output to " ++ w.CpuProfileFile ++ "]"))] ++
      ([Effect.NewGateway, Effect.NewRest, Effect.setupExitSignalHandler,
      Effect.gatewayRun, Effect.log (LogLine.Infof "[gateway engine started]"), Effect.apiStart,
      Effect.log (LogLine.Infof ("[rest interface started at " ++ w.listenAddr ++ "]"))]
      ++ mainSupervise ch err) ++ mainDeferred w true 0, 0⟩, ?_, ?_, ?_⟩
    · simp only [main, mainAfterDefer, hfile, hg, hr, hrun, hstart, hd, selectDone, hcreate]
      simp [hfile]
    · simp only [main, mainAfterDefer, hfile, hg, hr, hrun, hstart, selectDone, hcreate]
      simp [mainDeferred, hfile]
    · have hdef : mainDeferred w true 0 =
          [Effect.StopCPUProfile, Effect.cpuProfileClose, Effect.osExit 0] := by
        simp [mainDeferred, hfile]
      have hlog : startupLog w =
          [LogLine.Infof ("[cpu profiling started, output to " ++ w.CpuProfileFile ++ "]"),
            LogLine.Infof "[gateway engine started]",
            LogLine.Infof ("[rest interface started at " ++ w.listenAddr ++ "]")] := by
        simp [startupLog, hfile]
      rw [hdef, hlog]
      cases ch <;> cases err <;>
        refine ⟨rfl, rfl, rfl, ?_, ?_, ?_, ?_⟩ <;>
        simp only [mainSupervise, List.cons_append, List.nil_append, List.count_cons,
          List.count_nil] <;> simp

/-- C4, as stated, fails: both subsystems start, the done signal of the gateway engine fires
first with the cause `listener closed`, and the process exits with status 0. -/
theorem listener_closed_exit_status_zero :
    listenerClosedWorld.started ∧
      selectDone listenerClosedWorld.doneSignals = some (DoneChan.done1, some "listener closed") ∧
      (main listenerClosedWorld).map (fun p => exitStatus p.trace) = some 0 ∧
      ¬ (∃ p, main listenerClosedWorld = some p ∧ exitStatus p.trace ≠ 0) := by
  refine ⟨by decide, by decide, by decide, ?_⟩
  rintro ⟨p, hp, hne⟩
  have h : (main listenerClosedWorld).map (fun p => exitStatus p.trace) = some 0 := by decide
  rw [hp] at h
  exact hne (Option.some.inj h)

/-- C4, amended: once both subsystems have started, `main` returns after the first done
signal, and the exit status of the process is 0 whether that signal carries a nil or a
non-nil error; the variable `exitCode` is never assigned on this path. -/
theorem exit_status_after_first_done_signal (w : World) (hs : w.started) (ch : DoneChan)
    (err : GoError) (rest : List (DoneChan × GoError)) (hd : w.doneSignals = (ch, err) :: rest) :
    ∃ p, main w = some p ∧ p.exitCode = 0 ∧ exitStatus p.trace = 0 := by
  obtain ⟨p, hp, _, hcode, hstatus, _⟩ := main_started w hs ch err rest hd
  exact ⟨p, hp, hcode, hstatus⟩

/-- C4, amended, at a concrete world: profiling is on, the api server's done signal fires
first with an error, the gateway's follows. -/
theorem exit_status_after_first_done_signal_witness :
    ∃ p, main ⟨"cpu.prof", none, none, none, none, none, ":2381",
        [(DoneChan.done2, some "server closed"), (DoneChan.done1, none)]⟩ = some p ∧
      p.exitCode = 0 ∧ exitStatus p.trace = 0 :=
  exit_status_after_first_done_signal
    ⟨"cpu.prof", none, none, none, none, none, ":2381",
      [(DoneChan.done2, some "server closed"), (DoneChan.done1, none)]⟩
    (by decide) DoneChan.done2 (some "server closed") [(DoneChan.done1, none)] rfl

/-- C5, as stated, fails in its teardown part: both subsystems start, the done signal of
the gateway engine fires first with the cause `listener closed`, the api server's follows;
`main` then closes each subsystem once but calls `Stop()` on neither, so `Stop()`/`Close()`
is not invoked on both exactly once each. -/
theorem no_stop_after_first_done_signal :
    (main ⟨"", none, none, none, none, none, ":2381",
        [(DoneChan.done1, some "listener closed"), (DoneChan.done2, none)]⟩).map
        (fun p => (p.trace.count Effect.gatewayStop, p.trace.count Effect.apiStop,
          p.trace.count Effect.gatewayClose, p.trace.count Effect.apiClose)) =
      some (0, 0, 1, 1) ∧
    ¬ (∃ p, main ⟨"", none, none, none, none, none, ":2381",
        [(DoneChan.done1, some "listener closed"), (DoneChan.done2, none)]⟩ = some p ∧
      p.trace.count Effect.gatewayStop = 1 ∧ p.trace.count Effect.apiStop = 1) := by
  refine ⟨by decide, ?_⟩
  rintro ⟨p, hp, hstop, _⟩
  have h : (main ⟨"", none, none, none, none, none, ":2381",
      [(DoneChan.done1, some "listener closed"), (DoneChan.done2, none)]⟩).map
      (fun p => p.trace.count Effect.gatewayStop) = some 0 := by decide
  rw [hp] at h
  have h0 : p.trace.count Effect.gatewayStop = 0 := Option.some.inj h
  omega

/-- C5, amended: once both subsystems have started, the done signal received first alone
determines the exit narrative: the log of the execution is the start-up lines, then the
narrative that names the subsystem of that signal and says `due to error: e` for a non-nil
error `e` and `without error` for a nil one, then the closing line; whatever done signals
follow, the execution is the same; and the teardown `main` performs is `gateway.Close()` and
`api.Close()`, each called exactly once whichever subsystem fired, with no `Stop()` call on
either subsystem. -/
theorem first_done_signal_determines_narrative (w : World) (hs : w.started) (ch : DoneChan)
    (err : GoError) (rest : List (DoneChan × GoError)) (hd : w.doneSignals = (ch, err) :: rest) :
    ∃ p, main w = some p ∧
      logLines p.trace =
        startupLog w ++ [exitNarrative ch err, LogLine.Infof "[gateway exited normally]"] ∧
      (∀ later, main { w with doneSignals := (ch, err) :: later } = some p) ∧
      p.trace.count Effect.gatewayClose = 1 ∧ p.trace.count Effect.apiClose = 1 ∧
      p.trace.count Effect.gatewayStop = 0 ∧ p.trace.count Effect.apiStop = 0 := by
  obtain ⟨p, hp, hp1, _, _, hlog, hgc, hac, hgs, has⟩ := main_started w hs ch err rest hd
  refine ⟨p, hp, hlog, ?_, hgc, hac, hgs, has⟩
  intro later
  obtain ⟨q, hq, hq1, _⟩ :=
    main_started { w with doneSignals := (ch, err) :: later } hs ch err later rfl
  have hqp : some q = some p := hq1.symm.trans hp1
  rw [hq, hqp]

/-- C5, amended, at a concrete world: profiling is on, the api server's done signal fires
first without error, the gateway engine's follows with an error. -/
theorem first_done_signal_determines_narrative_witness :
    ∃ p, main ⟨"cpu.prof", none, none, none, none, none, ":2381",
        [(DoneChan.done2, none), (DoneChan.done1, some "engine stopped")]⟩ = some p ∧
      logLines p.trace =
        startupLog ⟨"cpu.prof", none, none, none, none, none, ":2381",
          [(DoneChan.done2, none), (DoneChan.done1, some "engine stopped")]⟩ ++
        [exitNarrative DoneChan.done2 none, LogLine.Infof "[gateway exited normally]"] ∧
      (∀ later, main { (⟨"cpu.prof", none, none, none, none, none, ":2381",
          [(DoneChan.done2, none), (DoneChan.done1, some "engine stopped")]⟩ : World) with
          doneSignals := (DoneChan.done2, none) :: later } = some p) ∧
      p.trace.count Effect.gatewayClose = 1 ∧ p.trace.count Effect.apiClose = 1 ∧
      p.trace.count Effect.gatewayStop = 0 ∧ p.trace.count Effect.apiStop = 0 :=
  first_done_signal_determines_narrative
    ⟨"cpu.prof", none, none, none, none, none, ":2381",
      [(DoneChan.done2, none), (DoneChan.done1, some "engine stopped")]⟩
    (by decide) DoneChan.done2 none [(DoneChan.done1, some "engine stopped")] rfl

/-- C7, as stated, fails: `gateway.Run()` succeeds, `api.Start()` fails, and the process
exits with status 5 after one `gateway.Run()` and no call of `gateway.Stop()` or
`gateway.Close()`. -/
theorem api_start_failure_leaves_gateway_unstopped :
    apiStartFailsWorld.gatewayRun = none ∧
      apiStartFailsWorld.apiStart = some "address already in use" ∧
      (main apiStartFailsWorld).map
          (fun p => (exitStatus p.trace, p.trace.count Effect.gatewayRun,
            p.trace.count Effect.gatewayStop, p.trace.count Effect.gatewayClose)) =
        some (5, 1, 0, 0) := by
  refine ⟨by decide, by decide, by decide⟩

/-- C7, amended: when `api.Start()` returns an error after `gateway.Run()` succeeded, `main`
aborts start-up (it never reaches the `select`) and the process exits with status 5; on
that path the started gateway is neither stopped nor closed, and the api server is not
closed either. -/
theorem api_start_failure_exits_without_teardown (w : World)
    (hcpu : w.CpuProfileFile = "" ∨ w.osCreate = none) (hg : w.NewGateway = none)
    (hr : w.NewRest = none) (hrun : w.gatewayRun = none) (e : String)
    (hstart : w.apiStart = some e) :
    ∃ p, main w = some p ∧ p.exitCode = 5 ∧ exitStatus p.trace = 5 ∧
      p.trace.count Effect.gatewayRun = 1 ∧ p.trace.count Effect.gatewayStop = 0 ∧
      p.trace.count Effect.gatewayClose = 0 ∧ p.trace.count Effect.apiClose = 0 ∧
      ∀ ch, p.trace.count (Effect.received ch) = 0 := by
  by_cases hfile : w.CpuProfileFile = ""
  · refine ⟨⟨[Effect.NewGateway, Effect.NewRest, Effect.setupExitSignalHandler,
      Effect.gatewayRun, Effect.log (LogLine.Infof "[gateway engine started]"), Effect.apiStart,
      Effect.log (LogLine.Errorf
        ("[start rest interface at " ++ w.listenAddr ++ " failed: " ++ e ++ "]"))]
      ++ [Effect.osExit 5], 5⟩, ?_, rfl, rfl, ?_⟩
    · simp only [main, mainAfterDefer, hfile, hg, hr, hrun, hstart]
      simp [mainDeferred, hfile]
    · simp
  · have hcreate : w.osCreate = none := hcpu.resolve_left hfile
    refine ⟨⟨[Effect.osCreate w.CpuProfileFile, Effect.StartCPUProfile,
      Effect.log (LogLine.Infof
        ("[cpu profiling started, output to " ++ w.CpuProfileFile ++ "]"))] ++
      [Effect.NewGateway, Effect.NewRest, Effect.setupExitSignalHandler,
      Effect.gatewayRun, Effect.log (LogLine.Infof "[gateway engine started]"), Effect.apiStart,
      Effect.log (LogLine.Errorf
        ("[start rest interface at " ++ w.listenAddr ++ " failed: " ++ e ++ "]"))]
      ++ [Effect.StopCPUProfile, Effect.cpuProfileClose, Effect.osExit 5], 5⟩, ?_, rfl, rfl, ?_⟩
    · simp only [main, mainAfterDefer, hfile, hg, hr, hrun, hstart, hcreate]
      simp [mainDeferred, hfile]
    · simp

/-- C7, amended, at a concrete world: profiling is on, the gateway starts, the api server
fails to start. -/
theorem api_start_failure_exits_without_teardown_witness :
    ∃ p, main ⟨"cpu.prof", none, none, none, none, some "bind failed", ":2381", []⟩ = some p ∧
      p.exitCode = 5 ∧ exitStatus p.trace = 5 ∧
      p.trace.count Effect.gatewayRun = 1 ∧ p.trace.count Effect.gatewayStop = 0 ∧
      p.trace.count Effect.gatewayClose = 0 ∧ p.trace.count Effect.apiClose = 0 ∧
      ∀ ch, p.trace.count (Effect.received ch) = 0 :=
  api_start_failure_exits_without_teardown
    ⟨"cpu.prof", none, none, none, none, some "bind failed", ":2381", []⟩
    (Or.inr rfl) rfl rfl rfl "bind failed" rfl

/-- The start-up failures after the `defer` statement: a failure of `NewGateway`, `NewRest`,
`gateway.Run()` or `api.Start()` (the earlier calls having succeeded) makes the process exit
with the status assigned in its branch, 2, 3, 4 or 5. -/
theorem main_startup_failure_status (w : World)
    (hcpu : w.CpuProfileFile = "" ∨ w.osCreate = none) :
    (∀ e, w.NewGateway = some e → ∃ p, main w = some p ∧ exitStatus p.trace = 2) ∧
    (∀ e, w.NewGateway = none → w.NewRest = some e →
      ∃ p, main w = some p ∧ exitStatus p.trace = 3) ∧
    (∀ e, w.NewGateway = none → w.NewRest = none → w.gatewayRun = some e →
      ∃ p, main w = some p ∧ exitStatus p.trace = 4) ∧
    (∀ e, w.NewGateway = none → w.NewRest = none → w.gatewayRun = none → w.apiStart = some e →
      ∃ p, main w = some p ∧ exitStatus p.trace = 5) := by
  by_cases hfile : w.CpuProfileFile = ""
  · refine ⟨?_, ?_, ?_, ?_⟩
    · intro e h1
      simp [main, mainAfterDefer, mainDeferred, hfile, h1, exitStatus]
    · intro e h1 h2
      simp [main, mainAfterDefer, mainDeferred, hfile, h1, h2, exitStatus]
    · intro e h1 h2 h3
      simp [main, mainAfterDefer, mainDeferred, hfile, h1, h2, h3, exitStatus]
    · intro e h1 h2 h3 h4
      simp [main, mainAfterDefer, mainDeferred, hfile, h1, h2, h3, h4, exitStatus]
  · have hcreate : w.osCreate = none := hcpu.resolve_left hfile
    refine ⟨?_, ?_, ?_, ?_⟩
    · intro e h1
      simp [main, mainAfterDefer, mainDeferred, hfile, hcreate, h1, exitStatus]
    · intro e h1 h2
      simp [main, mainAfterDefer, mainDeferred, hfile, hcreate, h1, h2, exitStatus]
    · intro e h1 h2 h3
      simp [main, mainAfterDefer, mainDeferred, hfile, hcreate, h1, h2, h3, exitStatus]
    · intro e h1 h2 h3 h4
      simp [main, mainAfterDefer, mainDeferred, hfile, hcreate, h1, h2, h3, h4, exitStatus]

/-- C8, the failing branch: with a CPU profile file configured and `os.Create` failing,
`main` assigns 1 to `exitCode` and returns before the `defer` statement, so no `os.Exit` is
executed and the process exits with status 0 instead of 1. -/
theorem cpu_profile_failure_exits_zero :
    main cpuProfileFailsWorld =
        some ⟨[Effect.osCreate "/nonexistent/cpu.prof",
          Effect.log (LogLine.Errorf
            "[initialize cpu profile failed: no such file or directory]")], 1⟩ ∧
      (main cpuProfileFailsWorld).map (fun p => p.exitCode) = some 1 ∧
      (main cpuProfileFailsWorld).map (fun p => exitStatus p.trace) = some 0 := by
  refine ⟨by decide, by decide, by decide⟩

/-! ## Properties: the exit-signal handler of `src/server/main.go` -/

theorem SignalHandler.run_exited (events : List HandlerEvent) (h : SignalHandler) (status : Nat)
    (hp : h.proc = Proc.exited status) : h.run events = h := by
  induction events with
  | nil => rfl
  | cons e rest ih =>
    have hstep : h.step e = h := by
      unfold SignalHandler.step
      rw [hp]
    unfold SignalHandler.run at ih ⊢
    rw [List.foldl_cons, hstep]
    exact ih

/-- C6, the failing input: a first signal starts `gateway.Stop()`; `gateway.Stop()` returns,
so the channel is closed and the handler returns, while the process has not exited; a
second signal then arrives. The process does not terminate with status 255: the delivery
panics with `send on closed channel` and the process ends with status 2. -/
theorem second_signal_after_stop_returned_panics :
    (setupExitSignalHandler.run
        [HandlerEvent.signal Signal.SIGINT, HandlerEvent.stopReturns]).proc = Proc.running ∧
      (setupExitSignalHandler.run
        [HandlerEvent.signal Signal.SIGINT, HandlerEvent.stopReturns,
          HandlerEvent.signal Signal.SIGINT]).proc = Proc.panicked "send on closed channel" ∧
      (setupExitSignalHandler.run
        [HandlerEvent.signal Signal.SIGINT, HandlerEvent.stopReturns,
          HandlerEvent.signal Signal.SIGINT]).proc.exitStatus? = some 2 ∧
      (setupExitSignalHandler.run
        [HandlerEvent.signal Signal.SIGINT, HandlerEvent.stopReturns,
          HandlerEvent.signal Signal.SIGINT]).proc ≠ Proc.exited 255 := by
  refine ⟨by decide, by decide, by decide, by decide⟩

/-- The part of the escalation that the handler does achieve: for every sequence of
operator signals (all four kinds alike) delivered while the `gateway.Stop()` started by the
first one has not returned, the first signal causes exactly one asynchronous
`gateway.Stop()` call and leaves the process running and the handler listening; the second
signal terminates the process at once with status 255, that `gateway.Stop()` still being
in flight; and nothing later changes this. -/
theorem signals_while_stop_in_flight :
    (∀ s : Signal,
      (setupExitSignalHandler.run [HandlerEvent.signal s]).proc = Proc.running ∧
      (setupExitSignalHandler.run [HandlerEvent.signal s]).stopCalls = 1 ∧
      (setupExitSignalHandler.run [HandlerEvent.signal s]).stopInFlight = true ∧
      (setupExitSignalHandler.run [HandlerEvent.signal s]).listening = true) ∧
    (∀ (s1 s2 : Signal) (later : List Signal),
      (setupExitSignalHandler.run
        ((s1 :: s2 :: later).map HandlerEvent.signal)).proc = Proc.exited 255 ∧
      (setupExitSignalHandler.run
        ((s1 :: s2 :: later).map HandlerEvent.signal)).stopCalls = 1 ∧
      (setupExitSignalHandler.run
        ((s1 :: s2 :: later).map HandlerEvent.signal)).stopInFlight = true) := by
  constructor
  · intro s
    cases s <;> exact ⟨rfl, rfl, rfl, rfl⟩
  · intro s1 s2 later
    have hsplit : setupExitSignalHandler.run ((s1 :: s2 :: later).map HandlerEvent.signal) =
        (setupExitSignalHandler.run [HandlerEvent.signal s1, HandlerEvent.signal s2]).run
          (later.map HandlerEvent.signal) := by
      simp [SignalHandler.run]
    have hexit : (setupExitSignalHandler.run
        [HandlerEvent.signal s1, HandlerEvent.signal s2]).proc = Proc.exited 255 := by
      cases s1 <;> cases s2 <;> rfl
    rw [hsplit, SignalHandler.run_exited _ _ 255 hexit]
    cases s1 <;> cases s2 <;> exact ⟨rfl, rfl, rfl⟩

/-! ## Properties: the service-instance handlers -/

theorem readServiceInstanceInfo_ok (r : Request) (h1 : r.serviceName ≠ "")
    (h2 : r.instanceID ≠ "") :
    readServiceInstanceInfo r = Except.ok (r.serviceName, r.instanceID) := by
  simp [readServiceInstanceInfo, h1, h2]

/-- C9: for `getServiceInstanceSpec` and `offlineSerivceInstance` and every request:
`readServiceInstanceInfo` fails exactly when one of the two URL parameters is empty, with
the service name checked first; the response status is 400 exactly in that case; otherwise
it is 404 exactly when the store holds no spec for the pair; in both error cases
`offlineSerivceInstance` makes no `PutServiceInstanceSpec` call; and on success it answers
200 and puts back the spec it read with only `Status` set to out-of-service. -/
theorem serviceInstance_handlers_status {PB : Type} (a : API PB) (r : Request) :
    ((∃ e, readServiceInstanceInfo r = Except.error e) ↔
      (r.serviceName = "" ∨ r.instanceID = "")) ∧
    (r.serviceName = "" → readServiceInstanceInfo r = Except.error "empty service name") ∧
    ((getServiceInstanceSpec a r).status? = some 400 ↔
      (r.serviceName = "" ∨ r.instanceID = "")) ∧
    ((offlineSerivceInstance a r).1.status = 400 ↔
      (r.serviceName = "" ∨ r.instanceID = "")) ∧
    (¬ (r.serviceName = "" ∨ r.instanceID = "") →
      ((getServiceInstanceSpec a r).status? = some 404 ↔
        a.GetServiceInstanceSpec r.serviceName r.instanceID = none) ∧
      ((offlineSerivceInstance a r).1.status = 404 ↔
        a.GetServiceInstanceSpec r.serviceName r.instanceID = none)) ∧
    ((offlineSerivceInstance a r).1.status = 400 ∨ (offlineSerivceInstance a r).1.status = 404 →
      putCalls (offlineSerivceInstance a r).2 = []) ∧
    (∀ instanceSpec, ¬ (r.serviceName = "" ∨ r.instanceID = "") →
      a.GetServiceInstanceSpec r.serviceName r.instanceID = some instanceSpec →
      (offlineSerivceInstance a r).1.status = 200 ∧
      putCalls (offlineSerivceInstance a r).2 =
        [{ instanceSpec with Status := a.ServiceStatusOutOfService }]) := by
  by_cases h1 : r.serviceName = ""
  · have hread : readServiceInstanceInfo r = Except.error "empty service name" := by
      simp [readServiceInstanceInfo, h1]
    refine ⟨?_, ?_, ?_, ?_, ?_, ?_, ?_⟩
    · exact ⟨fun _ => Or.inl h1, fun _ => ⟨_, hread⟩⟩
    · exact fun _ => hread
    · simp [getServiceInstanceSpec, hread, HandlerResult.status?, HandleAPIError,
        StatusBadRequest, h1]
    · simp [offlineSerivceInstance, hread, HandleAPIError, StatusBadRequest, h1]
    · intro hne
      exact absurd (Or.inl h1) hne
    · intro _
      simp [offlineSerivceInstance, hread, putCalls]
    · intro _ hne
      exact absurd (Or.inl h1) hne
  · by_cases h2 : r.instanceID = ""
    · have hread : readServiceInstanceInfo r = Except.error "empty instance id" := by
        simp [readServiceInstanceInfo, h1, h2]
      refine ⟨?_, ?_, ?_, ?_, ?_, ?_, ?_⟩
      · exact ⟨fun _ => Or.inr h2, fun _ => ⟨_, hread⟩⟩
      · exact fun h => absurd h h1
      · simp [getServiceInstanceSpec, hread, HandlerResult.status?, HandleAPIError,
          StatusBadRequest, h2]
      · simp [offlineSerivceInstance, hread, HandleAPIError, StatusBadRequest, h2]
      · intro hne
        exact absurd (Or.inr h2) hne
      · intro _
        simp [offlineSerivceInstance, hread, putCalls]
      · intro _ hne
        exact absurd (Or.inr h2) hne
    · have hread := readServiceInstanceInfo_ok r h1 h2
      have hnone : ¬ (r.serviceName = "" ∨ r.instanceID = "") := by
        rintro (h | h)
        · exact h1 h
        · exact h2 h
      cases hget : a.GetServiceInstanceSpec r.serviceName r.instanceID with
      | none =>
        refine ⟨?_, ?_, ?_, ?_, ?_, ?_, ?_⟩
        · simp [hread, h1, h2]
        · exact fun h => absurd h h1
        · simp [getServiceInstanceSpec, hread, hget, HandlerResult.status?, HandleAPIError,
            StatusNotFound, h1, h2]
        · simp [offlineSerivceInstance, hread, hget, HandleAPIError, StatusNotFound, h1, h2]
        · intro _
          simp [getServiceInstanceSpec, offlineSerivceInstance, hread, hget,
            HandlerResult.status?, HandleAPIError, StatusNotFound]
        · intro _
          simp [offlineSerivceInstance, hread, hget, putCalls]
        · intro instanceSpec _ h
          cases h
      | some spec0 =>
        have hstatus : ∀ n : Nat, n ≠ 200 →
            (getServiceInstanceSpec a r).status? ≠ some n := by
          intro n hn
          simp only [getServiceInstanceSpec, hread, hget]
          cases hc : a.convertSpecToPB spec0 with
          | error e => simp [HandlerResult.status?]
          | ok pb =>
            cases hm : a.jsonMarshal pb with
            | error e => simp [HandlerResult.status?, hm]
            | ok buff =>
              simp only [hm, HandlerResult.status?, StatusOK, ne_eq, Option.some.injEq]
              exact fun h => hn h.symm
        refine ⟨?_, ?_, ?_, ?_, ?_, ?_, ?_⟩
        · simp [hread, h1, h2]
        · exact fun h => absurd h h1
        · simp only [h1, h2, or_self, iff_false]
          exact hstatus 400 (by decide)
        · simp [offlineSerivceInstance, hread, hget, StatusOK, h1, h2]
        · intro _
          refine ⟨?_, ?_⟩
          · simp only [reduceCtorEq, iff_false]
            exact hstatus 404 (by decide)
          · simp [offlineSerivceInstance, hread, hget, StatusOK]
        · simp [offlineSerivceInstance, hread, hget, StatusOK]
        · intro instanceSpec _ h
          cases h
          simp [offlineSerivceInstance, hread, hget, StatusOK, putCalls]

/-- C9 at concrete requests: on a store holding the instance `a/2`, taking `a/2` offline
answers 200 and puts back that spec with the out-of-service status, and nothing else. -/
theorem serviceInstance_handlers_status_witness :
    ¬ ("a" = "" ∨ "2" = "") ∧
      (storeAPI [instanceA2]).GetServiceInstanceSpec "a" "2" = some instanceA2 ∧
      (offlineSerivceInstance (storeAPI [instanceA2]) ⟨"a", "2"⟩).1.status = 200 ∧
      putCalls (offlineSerivceInstance (storeAPI [instanceA2]) ⟨"a", "2"⟩).2 =
        [{ instanceA2 with Status := "OUT_OF_SERVICE" }] :=
  ⟨by decide, by decide,
    (serviceInstance_handlers_status (storeAPI [instanceA2]) ⟨"a", "2"⟩).2.2.2.2.2.2
      instanceA2 (by decide) (by decide)⟩

/-- C10, the failing input: on the instances `a/2` and `b/1`, `serviceInstancesByOrder.Less`
holds in both directions, although the lexicographic order on `(ServiceName, InstanceID)`
puts `a/2` strictly before `b/1`; and `listServiceInstanceSpecs` turns the store content
`a/2, b/1` into `b/1, a/2`, which is not ordered by `ServiceName`. -/
theorem serviceInstancesByOrder_Less_both_ways :
    serviceInstancesByOrder.Less instanceA2 instanceB1 = true ∧
      serviceInstancesByOrder.Less instanceB1 instanceA2 = true ∧
      lexServiceInstance instanceA2 instanceB1 ∧ ¬ lexServiceInstance instanceB1 instanceA2 ∧
      listServiceInstanceSpecs (storeAPI [instanceA2, instanceB1]) = [instanceB1, instanceA2] := by
  refine ⟨by decide, by decide, ?_, ?_, by decide⟩
  · exact Or.inl ((stringLess_iff "a" "b").1 (by decide))
  · rintro (h | ⟨h, _⟩)
    · have := (stringLess_iff "b" "a").2 h
      revert this
      decide
    · revert h
      decide

end Easegress
